import Mathlib

/-!
Package `godb`: SQL filter, condition, query builder and model queries.

A shallow embedding of `filter.go` and `model.go` of the `godb` package, with the
`Condition` and `QB` types they and the tests call modelled from the specification,
followed by theorems about the rendered SQL text and the bound arguments.

Conventions of the embedding:

* a Go `string` is a Lean `String`; the placeholder marker is the character `?` (in
  UTF-8 text the byte of `?` occurs only as that character);
* a Go slice is a `List` (a nil slice and an empty slice are both `[]`, except where
  the code tells them apart, and there the slice is an `Option (List _)`);
* a method with a pointer receiver that mutates and returns its receiver is a function
  from the old state to the new state;
* a Go `int` is an `Int`; no arithmetic is performed on it, it is only compared with
  zero and printed.
-/

namespace godb

/-! ## Go runtime values and library functions used by the package -/

/-- A value held in a Go `interface{}`: the nil interface, some scalar values, a
non-nil pointer (identified by the address it holds), a typed nil pointer, or any other
value that is not a pointer (identified by a description). -/
inductive GoValue where
  | nil
  | int (i : Int)
  | str (s : String)
  | bool (b : Bool)
  | ptr (addr : Nat)
  | nilPtr
  | other (description : String)
  deriving DecidableEq

/-- Go `string`. The alias keeps the type nameable next to the methods called `String`. -/
abbrev GoString := String

/-- The number of placeholder markers `?` in a text. -/
def markers (s : String) : Nat := s.data.count '?'

/-- Go `strings.Join(elems, sep)`: empty for no element, otherwise the first element
followed by `sep ++ e` for every further element `e`. -/
def strings.Join (elems : List String) (sep : String) : String :=
  match elems with
  | [] => ""
  | first :: rest => rest.foldl (fun b s => b ++ sep ++ s) first

/-- Go `fmt` verb `%v` applied to an `int`: the decimal digits, preceded by `-` for a
negative number. -/
def fmtInt : Int → String
  | Int.ofNat n => Nat.repr n
  | Int.negSucc n => "-" ++ Nat.repr (n + 1)

/-- Order: `sqlOrderFilter`. -/
structure sqlOrderFilter where
  Field : String
  Direction : String
  deriving DecidableEq

/-- SQL expression: `sqlExpression`. -/
structure sqlExpression where
  Expression : String
  deriving DecidableEq

/-- SQL pagination limit offset: `sqlPaginationFilter`. -/
structure sqlPaginationFilter where
  Limit : Int
  Offset : Int
  deriving DecidableEq

/-- Filter struct: `SqlFilter`. -/
structure SqlFilter where
  expression : List sqlExpression
  orders : List sqlOrderFilter
  pagination : sqlPaginationFilter
  arguments : List GoValue
  deriving DecidableEq

/-- The zero value `SqlFilter{}`. -/
def SqlFilter.zero : SqlFilter :=
  { expression := [], orders := [], pagination := { Limit := 0, Offset := 0 }, arguments := [] }

/-- Constructor `NewSqlFilter`: the zero value with pagination `{Limit: 100, Offset: 0}`. -/
def NewSqlFilter : SqlFilter :=
  { expression := [], orders := [], pagination := { Limit := 100, Offset := 0 }, arguments := [] }

/-- Method `AddFiledFilter`: appends the expression `field condition ?`; the value is appended
to the arguments only when it is not the nil interface. -/
def SqlFilter.AddFiledFilter (f : SqlFilter) (field condition : String) (value : GoValue) :
    SqlFilter :=
  let expression := field ++ " " ++ condition ++ " ?"
  let expr : sqlExpression := { Expression := expression }
  let f := { f with expression := f.expression ++ [expr] }
  if value ≠ GoValue.nil then { f with arguments := f.arguments ++ [value] } else f

/-- Method `AddInFilter`: one marker per value, joined by commas, inside `field IN (...)`. -/
def SqlFilter.AddInFilter (f : SqlFilter) (field : String) (values : List GoValue) : SqlFilter :=
  let condition := List.replicate values.length "?"
  let expression : sqlExpression :=
    { Expression := field ++ " IN (" ++ strings.Join condition "," ++ ")" }
  { f with expression := f.expression ++ [expression], arguments := f.arguments ++ values }

/-- Method `AddNotInFilter`: one marker per value, joined by commas, inside `field NOT IN (...)`. -/
def SqlFilter.AddNotInFilter (f : SqlFilter) (field : String) (values : List GoValue) :
    SqlFilter :=
  let condition := List.replicate values.length "?"
  let expression : sqlExpression :=
    { Expression := field ++ " NOT IN (" ++ strings.Join condition "," ++ ")" }
  { f with expression := f.expression ++ [expression], arguments := f.arguments ++ values }

/-- Method `AddExpression`: appends the raw fragment, and the values when there are any. -/
def SqlFilter.AddExpression (f : SqlFilter) (expression : String) (values : List GoValue) :
    SqlFilter :=
  let expr : sqlExpression := { Expression := expression }
  let f := { f with expression := f.expression ++ [expr] }
  if values.length > 0 then { f with arguments := f.arguments ++ values } else f

/-- Method `AddOrder`: appends the pair `(field, direction)` to the orders. -/
def SqlFilter.AddOrder (f : SqlFilter) (field direction : String) : SqlFilter :=
  { f with orders := f.orders ++ [{ Field := field, Direction := direction }] }

/-- Method `SetPagination`: replaces the pagination. -/
def SqlFilter.SetPagination (f : SqlFilter) (limit offset : Int) : SqlFilter :=
  { f with pagination := { Limit := limit, Offset := offset } }

/-- Method `GetArguments`: the stored arguments. -/
def SqlFilter.GetArguments (f : SqlFilter) : List GoValue := f.arguments

/-- Method `String`: the two loops collect the order texts and the expression texts; the
local `pagination` is first the `ORDER BY` part and then extended by the `LIMIT` part. -/
def SqlFilter.String (f : SqlFilter) : GoString :=
  let orders : List GoString :=
    f.orders.foldl (fun acc value => acc ++ [value.Field ++ " " ++ value.Direction]) []
  let pagination : GoString :=
    if orders.length > 0 then "ORDER BY " ++ strings.Join orders ", " ++ " " else ""
  let pagination : GoString :=
    if f.pagination.Limit > 0 then
      pagination ++ "LIMIT " ++ fmtInt f.pagination.Limit ++ " OFFSET " ++
        fmtInt f.pagination.Offset
    else pagination
  let expressionFilters : List GoString :=
    f.expression.foldl (fun acc value => acc ++ [value.Expression]) []
  let conditionFilters : List GoString :=
    if expressionFilters.length > 0 then [] ++ expressionFilters else []
  strings.Join conditionFilters " AND " ++ " " ++ pagination

/-- Method `GetWithWhere`: `WHERE ` before `String()` when an expression is stored. -/
def SqlFilter.GetWithWhere (f : SqlFilter) : GoString :=
  if f.expression.length > 0 then "WHERE " ++ f.String else f.String

/-- One call of a mutator of `SqlFilter`, with its arguments. -/
inductive FilterCall where
  | AddFiledFilter (field condition : String) (value : GoValue)
  | AddInFilter (field : String) (values : List GoValue)
  | AddNotInFilter (field : String) (values : List GoValue)
  | AddExpression (expression : String) (values : List GoValue)
  | AddOrder (field direction : String)
  | SetPagination (limit offset : Int)
  deriving DecidableEq

/-- Performs one mutator call on a filter. -/
def FilterCall.apply (c : FilterCall) (f : SqlFilter) : SqlFilter :=
  match c with
  | .AddFiledFilter field condition value => f.AddFiledFilter field condition value
  | .AddInFilter field values => f.AddInFilter field values
  | .AddNotInFilter field values => f.AddNotInFilter field values
  | .AddExpression expression values => f.AddExpression expression values
  | .AddOrder field direction => f.AddOrder field direction
  | .SetPagination limit offset => f.SetPagination limit offset

/-- Performs a sequence of mutator calls, first call first. -/
def SqlFilter.run (f : SqlFilter) (calls : List FilterCall) : SqlFilter :=
  calls.foldl (fun g c => c.apply g) f

/-- Whether a call adds a predicate expression. -/
def FilterCall.isPredicate : FilterCall → Bool
  | .AddFiledFilter _ _ _ => true
  | .AddInFilter _ _ => true
  | .AddNotInFilter _ _ => true
  | .AddExpression _ _ => true
  | .AddOrder _ _ => false
  | .SetPagination _ _ => false

/-- The values a call passes to a predicate-adding mutator (none for the other calls). -/
def FilterCall.values : FilterCall → List GoValue
  | .AddFiledFilter _ _ value => [value]
  | .AddInFilter _ values => values
  | .AddNotInFilter _ values => values
  | .AddExpression _ values => values
  | .AddOrder _ _ => []
  | .SetPagination _ _ => []

/-- The values passed by a sequence of calls, concatenated in call order. -/
def passedValues : List FilterCall → List GoValue
  | [] => []
  | c :: rest => c.values ++ passedValues rest

/-- The side conditions on a call under which markers and arguments stay aligned: no
marker inside a field, operator, order field or direction; a non-nil value for
`AddFiledFilter`; as many markers in a raw fragment as values passed with it. -/
def FilterCall.admissible : FilterCall → Prop
  | .AddFiledFilter field condition value =>
      markers field = 0 ∧ markers condition = 0 ∧ value ≠ GoValue.nil
  | .AddInFilter field _ => markers field = 0
  | .AddNotInFilter field _ => markers field = 0
  | .AddExpression expression values => markers expression = values.length
  | .AddOrder field direction => markers field = 0 ∧ markers direction = 0
  | .SetPagination _ _ => True

instance FilterCall.admissibleDecidable (c : FilterCall) : Decidable c.admissible := by
  cases c <;> unfold FilterCall.admissible <;> infer_instance

/-- The conditions text as the specification words it: the expressions in append order
joined by ` AND `. -/
def conditionsText (f : SqlFilter) : GoString :=
  " AND ".intercalate (f.expression.map fun e => e.Expression)

/-- The order-and-pagination text as the specification words it: `ORDER BY f1 d1, f2 d2, ...`
and one space when there is an order, then `LIMIT n OFFSET m` when the limit is positive. -/
def orderAndPagination (f : SqlFilter) : GoString :=
  (if f.orders = [] then ""
   else "ORDER BY " ++ ", ".intercalate (f.orders.map fun o => o.Field ++ " " ++ o.Direction)
      ++ " ") ++
  (if 0 < f.pagination.Limit then
     "LIMIT " ++ fmtInt f.pagination.Limit ++ " OFFSET " ++ fmtInt f.pagination.Offset
   else "")

/-- Alignment of a filter state: the markers of the stored expressions are as many as
the stored arguments, and no order field or direction holds a marker. -/
def Aligned (f : SqlFilter) : Prop :=
  (f.expression.map fun e => markers e.Expression).sum = f.arguments.length ∧
    ∀ o ∈ f.orders, markers o.Field = 0 ∧ markers o.Direction = 0

/-! ## `Condition`

The type `Condition`, its constructor and its methods are not among the sources; only
their callers (`model.go`, `query_builder_test.go`) are. -/

/-- Modelled from the spec: the boolean operator of a `Condition` (`operator ∈ {AND, OR}`);
the declaration of the operator constants is missing from the sources. -/
inductive ConditionOperator where
  | And
  | Or
  deriving DecidableEq

/-- Modelled from the spec: the constant `ConditionOperatorAnd` used by the test
`TestCondition_IsEmpty`; its declaration is missing from the sources. -/
def ConditionOperatorAnd : ConditionOperator := ConditionOperator.And

/-- Modelled from the spec: the SQL keyword of an operator; missing from the sources. -/
def ConditionOperator.keyword : ConditionOperator → GoString
  | .And => "AND"
  | .Or => "OR"

/-- Modelled from the spec: an Expression `{text, values[]}`, an atomic SQL text fragment
plus zero or more bound values; the type is missing from the sources. -/
structure Expression where
  text : String
  values : List GoValue
  deriving DecidableEq

/-- Modelled from the spec: a Condition `{operator, expressions[]}`; the type `Condition`
is missing from the sources. A `*Condition` is an `Option Condition`, `none` being the
nil pointer. -/
structure Condition where
  operator : ConditionOperator
  expressions : List Expression
  deriving DecidableEq

/-- Modelled from the spec: the constructor `NewSqlCondition(operator)`, missing from the
sources, gives a condition without expressions. -/
def NewSqlCondition (operator : ConditionOperator) : Condition :=
  { operator := operator, expressions := [] }

/-- Modelled from the spec: `Condition.AddExpression(text, values...)`, missing from the
sources, appends a raw fragment; `values` may be empty. -/
def Condition.AddExpression (c : Condition) (text : String) (values : List GoValue) : Condition :=
  { c with expressions := c.expressions ++ [{ text := text, values := values }] }

/-- Modelled from the spec: `Condition.String()`, missing from the sources, joins the
expressions with ` OPERATOR `; a single expression needs no operator and zero
expressions render empty. -/
def Condition.String (c : Condition) : GoString :=
  strings.Join (c.expressions.map fun e => e.text) (" " ++ c.operator.keyword ++ " ")

/-- Modelled from the spec: `Condition.IsEmpty()`, missing from the sources, is true iff
zero expressions exist or the condition itself is absent (a nil receiver). -/
def Condition.IsEmpty : Option Condition → Bool
  | none => true
  | some c => c.expressions.length == 0

/-- Modelled from the spec: `Condition.GetArguments()`, missing from the sources, is the
concatenation of each expression's values in append order. -/
def Condition.GetArguments (c : Condition) : List GoValue :=
  (c.expressions.map fun e => e.values).flatten

/-- A condition built by `NewSqlCondition(operator)` followed by the given
`AddExpression(text, values...)` calls, first call first. -/
def Condition.build (operator : ConditionOperator) (calls : List (GoString × List GoValue)) :
    Condition :=
  calls.foldl (fun c call => c.AddExpression call.1 call.2) (NewSqlCondition operator)

/-- The text of a `*Condition` where it is rendered: empty for the nil pointer. -/
def Condition.textOf : Option Condition → GoString
  | none => ""
  | some c => c.String

/-- The arguments of a `*Condition` where they are collected: none for the nil pointer. -/
def Condition.argumentsOf : Option Condition → List GoValue
  | none => []
  | some c => c.GetArguments

/-! ## `model.go` -/

/-- The outcome of a Go call: it returns a value or it panics. -/
inductive Outcome (α : Type) where
  | returned (a : α)
  | panicked
  deriving DecidableEq

/-- A `porterr.IError`: `none` is the nil error, `some msg` an error with its message. -/
abbrev IError := Option String

/-- A struct field of a model as reflection sees it: the address `ve.Field(i).Addr()` and
the column `ParseModelFiledTag(te.Field(i).Tag.Get("db")).Column` (the tag parser is not
among the sources; the column it yields is taken as given). -/
structure ModelField where
  addr : Nat
  column : String
  deriving DecidableEq

/-- The struct value behind a model pointer: the result of `Table()` and the struct
fields in declaration order. -/
structure Model where
  table : String
  fields : List ModelField
  deriving DecidableEq

/-- A value of the interface `IModel` as `ModelUpdateQuery` inspects it through
reflection: the nil interface; a non-nil pointer to a struct value; a typed nil pointer,
for which `reflect.ValueOf(model).Elem()` is the zero `reflect.Value` and `ve.NumField()`
panics; or any other dynamic value (not a pointer, so that `Elem()` panics, or a pointer
to a value that is not a struct, so that `NumField()` panics). -/
inductive IModel where
  | nil
  | structPointer (m : Model)
  | nilPointer
  | notStructPointer
  deriving DecidableEq

/-- Expression `reflect.ValueOf(v).Kind() == reflect.Ptr`. -/
def GoValue.isPtrKind : GoValue → Bool
  | .ptr _ => true
  | .nilPtr => true
  | _ => false

/-- Whether a value is a non-nil pointer. -/
def GoValue.isNonNilPtr : GoValue → Bool
  | .ptr _ => true
  | _ => false

/-- The state in which a loop of `ModelUpdateQuery` is left: run to its end with the
collected columns and params, returned early with the error `Fields must be an
interfaces`, or panicked inside reflection. -/
inductive Loop where
  | done (columns : List String) (params : List GoValue)
  | failed (params : List GoValue)
  | panicked
  deriving DecidableEq

/-- The inner loop of `ModelUpdateQuery`, `for _, v := range fields`, for the model field
`f`. A value that is not of pointer kind makes the function return with an error; for a
nil pointer `cte.Elem()` is the zero `reflect.Value`, whose `Addr()` panics; a non-nil
pointer holding the address of `f` adds the entry `column = ?` and the pointer. -/
def ModelUpdateQuery.inner (f : ModelField) :
    List GoValue → List String → List GoValue → Loop
  | [], columns, params => Loop.done columns params
  | v :: rest, columns, params =>
    if v.isPtrKind = false then Loop.failed params
    else
      match v with
      | GoValue.ptr a =>
        if f.addr = a then
          ModelUpdateQuery.inner f rest (columns ++ [f.column ++ " = ?"]) (params ++ [v])
        else ModelUpdateQuery.inner f rest columns params
      | _ => Loop.panicked

/-- The outer loop of `ModelUpdateQuery`, `for i := 0; i < ve.NumField(); i++`. -/
def ModelUpdateQuery.outer :
    List ModelField → List GoValue → List String → List GoValue → Loop
  | [], _, columns, params => Loop.done columns params
  | f :: rest, fields, columns, params =>
    match ModelUpdateQuery.inner f fields columns params with
    | Loop.done columns params => ModelUpdateQuery.outer rest fields columns params
    | Loop.failed params => Loop.failed params
    | Loop.panicked => Loop.panicked

/-- Function `ModelUpdateQuery(model, condition, fields...)`, returning `(sql, params, e)`. The
variadic `fields` is `none` when it is the nil slice (no argument passed). The checks
`model == nil` and `fields == nil` come first, in this order; then reflection
(`reflect.ValueOf(model).Elem()`, `ve.NumField()`) panics unless the model is a non-nil
pointer to a struct; then the two loops run. -/
def ModelUpdateQuery (model : IModel) (condition : Option Condition)
    (fields : Option (List GoValue)) : Outcome (GoString × List GoValue × IError) :=
  match model, fields with
  | IModel.nil, _ => Outcome.returned ("", [], some "Model is nil, check your logic")
  | _, none => Outcome.returned ("", [], some "Fields is empty, nothing for update")
  | IModel.structPointer m, some fs =>
    match ModelUpdateQuery.outer m.fields fs [] [] with
    | Loop.panicked => Outcome.panicked
    | Loop.failed params => Outcome.returned ("", params, some "Fields must be an interfaces")
    | Loop.done columns params =>
      if columns.length > 0 then
        let sql := "UPDATE " ++ m.table ++ " SET " ++ strings.Join columns ","
        if Condition.IsEmpty condition = false then
          match condition with
          | some c =>
            Outcome.returned (sql ++ (" WHERE " ++ c.String ++ ";"), params ++ c.GetArguments,
              none)
          | none => Outcome.panicked
        else Outcome.returned (sql ++ ";", params, none)
      else Outcome.returned ("", params, some "No columns found in model")
  | _, some _ => Outcome.panicked

/-- Function `ModelDeleteQuery(model, condition)`, returning `(sql, e)`. It uses no
reflection, only `model.Table()`: `none` is the nil interface and `some m` a model whose
`Table()` returns `m.table`. -/
def ModelDeleteQuery (model : Option Model) (condition : Option Condition) :
    Outcome (GoString × IError) :=
  match model with
  | none => Outcome.returned ("", some "Model is nil, check your logic")
  | some m =>
    let sql := "DELETE FROM " ++ m.table
    if Condition.IsEmpty condition = false then
      match condition with
      | some c => Outcome.returned (sql ++ (" WHERE " ++ c.String ++ ";"), none)
      | none => Outcome.panicked
    else Outcome.returned (sql ++ ";", none)

/-- The matches of `ModelUpdateQuery` as the claim words them: the pairs (model field,
passed field pointer) where the pointer holds the address of the field, in model-field
order and, for one model field, in the order the pointers were passed. -/
def updateMatches (m : Model) (fields : List GoValue) : List (ModelField × GoValue) :=
  m.fields.flatMap fun f =>
    (fields.filter fun v => v = GoValue.ptr f.addr).map fun v => (f, v)

/-- The `SET` clause as the claim words it: the entries `column = ?`, one per match,
joined by `,`. -/
def updateSetClause (m : Model) (fields : List GoValue) : GoString :=
  ",".intercalate ((updateMatches m fields).map fun p => p.1.column ++ " = ?")

/-- The statement as the claim words it. -/
def updateSql (m : Model) (condition : Option Condition) (fields : List GoValue) : GoString :=
  "UPDATE " ++ m.table ++ " SET " ++ updateSetClause m fields ++
    (if Condition.IsEmpty condition then ";"
     else " WHERE " ++ Condition.textOf condition ++ ";")

/-- The params as the claim words them: the matched pointers in the order of their `SET`
entries, then the arguments of a non-empty condition. -/
def updateParams (m : Model) (condition : Option Condition) (fields : List GoValue) :
    List GoValue :=
  ((updateMatches m fields).map fun p => p.2) ++
    (if Condition.IsEmpty condition then [] else Condition.argumentsOf condition)

/-! ## `QB`, the query builder

The type `QB`, its constructor `NewQB` and its methods are not among the sources; only
callers are (`query_builder_test.go`, `dictionary.go`). -/

/-- Modelled from the spec: the operator of a set-operation step (UNION, INTERSECT,
EXCEPT); missing from the sources. -/
inductive SetOperator where
  | Union
  | Intersect
  | Except
  deriving DecidableEq

/-- Modelled from the spec: the SQL keyword of a set operator; missing from the sources. -/
def SetOperator.keyword : SetOperator → GoString
  | .Union => "UNION"
  | .Intersect => "INTERSECT"
  | .Except => "EXCEPT"

/-- Modelled from the spec: the QueryBuilder `{columns[], fromClause, relations[], where,
ctes: ordered mapping alias→QueryBuilder, orders[], pagination, setOps[](operator,
QueryBuilder), isSubQuery}`; the type `QB` is missing from the sources. The owned
`where` is a `*Condition` created lazily, the orders are the texts passed to the
variadic `AddOrder` of the callers, and `SubQuery` is the exported flag set by
`TestQB_Intersect`. -/
inductive QB where
  | mk (columns : List String) (fromClause : String) (relations : List String)
      (whereCondition : Option Condition) (ctes : List (String × QB)) (orders : List String)
      (pagination : sqlPaginationFilter) (setOps : List (SetOperator × QB)) (SubQuery : Bool)

/-- The projected columns. -/
def QB.columns : QB → List GoString
  | .mk columns _ _ _ _ _ _ _ _ => columns

/-- The FROM source. -/
def QB.fromClause : QB → GoString
  | .mk _ fromClause _ _ _ _ _ _ _ => fromClause

/-- The raw join clauses. -/
def QB.relations : QB → List GoString
  | .mk _ _ relations _ _ _ _ _ _ => relations

/-- The owned WHERE condition (nil until `Where()` is first called). -/
def QB.whereCondition : QB → Option Condition
  | .mk _ _ _ whereCondition _ _ _ _ _ => whereCondition

/-- The named CTEs in registration order. -/
def QB.ctes : QB → List (GoString × QB)
  | .mk _ _ _ _ ctes _ _ _ _ => ctes

/-- The order texts. -/
def QB.orders : QB → List GoString
  | .mk _ _ _ _ _ orders _ _ _ => orders

/-- The pagination. -/
def QB.pagination : QB → sqlPaginationFilter
  | .mk _ _ _ _ _ _ pagination _ _ => pagination

/-- The set-operation steps in call order. -/
def QB.setOps : QB → List (SetOperator × QB)
  | .mk _ _ _ _ _ _ _ setOps _ => setOps

/-- The `SubQuery` flag. -/
def QB.SubQuery : QB → Bool
  | .mk _ _ _ _ _ _ _ _ SubQuery => SubQuery

/-- Modelled from the spec: `NewQB()`, missing from the sources, the construction entry
point returning an empty, mutation-ready builder. -/
def NewQB : QB :=
  QB.mk [] "" [] none [] [] { Limit := 0, Offset := 0 } [] false

/-- Modelled from the spec: `QB.From(source)`, missing from the sources, sets the FROM text. -/
def QB.From : QB → GoString → QB
  | .mk c _ r w t o p s b, source => .mk c source r w t o p s b

/-- Modelled from the spec: `QB.Columns(...)`, missing from the sources, replaces the
projected column list. -/
def QB.Columns : QB → List GoString → QB
  | .mk _ f r w t o p s b, columns => .mk columns f r w t o p s b

/-- Modelled from the spec: `QB.Relate(joinText)`, missing from the sources, appends one
raw join clause. -/
def QB.Relate : QB → GoString → QB
  | .mk c f r w t o p s b, joinText => .mk c f (r ++ [joinText]) w t o p s b

/-- Modelled from the spec: `QB.Where().AddExpression(text, values...)`; `Where()`,
missing from the sources, lazily creates the owned condition and on repeated calls
returns the same instance, so successive populations accumulate. -/
def QB.WhereAddExpression : QB → GoString → List GoValue → QB
  | .mk c f r w t o p s b, text, values =>
    .mk c f r (some ((w.getD (NewSqlCondition ConditionOperatorAnd)).AddExpression text values))
      t o p s b

/-- Replaces the builder registered under an alias, keeping its position, or appends
the pair when the alias is new. -/
def registerCte (cteName : GoString) (sub : QB) : List (GoString × QB) → List (GoString × QB)
  | [] => [(cteName, sub)]
  | (a, q) :: rest => if a = cteName then (cteName, sub) :: rest else (a, q) :: registerCte cteName sub rest

/-- Modelled from the spec: `QB.With(cteName, subBuilder)`, missing from the sources,
registers a named CTE; insertion order is render order and re-registering an existing
alias replaces it. -/
def QB.With : QB → GoString → QB → QB
  | .mk c f r w t o p s b, cteName, sub => .mk c f r w (registerCte cteName sub t) o p s b

/-- Modelled from the spec: `QB.AddOrder(...)`, missing from the sources, appends order
texts. -/
def QB.AddOrder : QB → List GoString → QB
  | .mk c f r w t o p s b, orders => .mk c f r w t (o ++ orders) p s b

/-- Modelled from the spec: `QB.SetPagination(limit, offset)`, missing from the sources. -/
def QB.SetPagination : QB → Int → Int → QB
  | .mk c f r w t o _ s b, limit, offset => .mk c f r w t o { Limit := limit, Offset := offset } s b

/-- Appends a set-operation step. -/
def QB.addSetOp : QB → SetOperator → QB → QB
  | .mk c f r w t o p s b, op, other => .mk c f r w t o p (s ++ [(op, other)]) b

/-- Modelled from the spec: `QB.Union(other)`, missing from the sources, appends a
set-operation step. -/
def QB.Union (q other : QB) : QB := q.addSetOp SetOperator.Union other

/-- Modelled from the spec: `QB.Intersect(other)`, missing from the sources. -/
def QB.Intersect (q other : QB) : QB := q.addSetOp SetOperator.Intersect other

/-- Modelled from the spec: `QB.Except(other)`, missing from the sources. -/
def QB.Except (q other : QB) : QB := q.addSetOp SetOperator.Except other

/-- Modelled from the spec: step 1 of the renderer, missing from the sources: for the
rendered CTEs `alias AS (<subtree>)`, the text `WITH ..., ... ` when CTEs exist. -/
def withText (ctes : List GoString) : GoString :=
  if ctes.length > 0 then "WITH " ++ strings.Join ctes ", " ++ " " else ""

/-- Modelled from the spec: steps 2 to 4 of the renderer, missing from the sources:
`SELECT <columns> FROM <fromClause> <relations...>`, `WHERE <condition>` only if the
condition is non-empty, `ORDER BY ...`, then `LIMIT n OFFSET m` as literal numbers when
the limit is positive. -/
def selectText (columns : List GoString) (fromClause : GoString) (relations : List GoString)
    (whereCondition : Option Condition) (orders : List GoString)
    (pagination : sqlPaginationFilter) : GoString :=
  "SELECT " ++ strings.Join columns ", " ++ " FROM " ++ fromClause ++
    String.join (relations.map fun r => " " ++ r) ++
    (if Condition.IsEmpty whereCondition then ""
     else " WHERE " ++ Condition.textOf whereCondition) ++
    (if orders.length > 0 then " ORDER BY " ++ strings.Join orders ", " else "") ++
    (if pagination.Limit > 0 then
       " LIMIT " ++ fmtInt pagination.Limit ++ " OFFSET " ++ fmtInt pagination.Offset
     else "")

/-- Modelled from the spec: step 6 of the renderer, missing from the sources: when the
flag is set, the output is wrapped in one parenthesis pair. -/
def parenthesize (subQuery : Bool) (text : GoString) : GoString :=
  if subQuery then "(" ++ text ++ ")" else text

mutual
/-- Modelled from the spec: the renderer, missing from the sources. With `outermost` the
builder is rendered on its own or as a CTE subtree (steps 1 to 6); without it, it is
rendered as a set-operation operand, a bare SELECT body whose own CTEs are not
rendered (steps 2 to 6). -/
def QB.render : Bool → QB → GoString
  | outermost, .mk columns fromClause relations whereCondition ctes orders pagination setOps
      subQuery =>
    parenthesize subQuery
      ((if outermost then withText (QB.renderCtes ctes) else "") ++
        selectText columns fromClause relations whereCondition orders pagination ++
        QB.renderOps setOps)
/-- Modelled from the spec: the items `alias AS (<subtree>)` of step 1, in registration
order; missing from the sources. -/
def QB.renderCtes : List (GoString × QB) → List GoString
  | [] => []
  | (cteName, q) :: rest => (cteName ++ " AS (" ++ QB.render true q ++ ")") :: QB.renderCtes rest
/-- Modelled from the spec: step 5, ` OPERATOR (<operand>)` for each set-operation step in
call order; missing from the sources. -/
def QB.renderOps : List (SetOperator × QB) → GoString
  | [] => ""
  | (op, q) :: rest => " " ++ op.keyword ++ " (" ++ QB.render false q ++ ")" ++ QB.renderOps rest
end

mutual
/-- Modelled from the spec: the argument collection, missing from the sources, in the
order of the renderer: the arguments of each CTE subtree (when the CTEs are rendered),
then those of the WHERE condition, then those of each set-operation operand. -/
def QB.collect : Bool → QB → List GoValue
  | outermost, .mk _ _ _ whereCondition ctes _ _ setOps _ =>
    (if outermost then QB.collectCtes ctes else []) ++
      Condition.argumentsOf whereCondition ++ QB.collectOps setOps
/-- Modelled from the spec: the arguments of the CTE subtrees in registration order. -/
def QB.collectCtes : List (GoString × QB) → List GoValue
  | [] => []
  | (_, q) :: rest => QB.collect true q ++ QB.collectCtes rest
/-- Modelled from the spec: the arguments of the set-operation operands in call order. -/
def QB.collectOps : List (SetOperator × QB) → List GoValue
  | [] => []
  | (_, q) :: rest => QB.collect false q ++ QB.collectOps rest
end

/-- Modelled from the spec: `QB.String()`, missing from the sources, the text-rendering
operation. -/
def QB.String (q : QB) : GoString := QB.render true q

/-- Modelled from the spec: `QB.GetArguments()`, missing from the sources, the
argument-rendering operation. -/
def QB.GetArguments (q : QB) : List GoValue := QB.collect true q

/-- Whether a text holds no marker. -/
def noMarker (s : GoString) : Bool := markers s == 0

/-- Whether every expression of a `*Condition` holds as many markers as values. -/
def Condition.wellFormed : Option Condition → Bool
  | none => true
  | some c => c.expressions.all fun e => markers e.text == e.values.length

mutual
/-- Well-formed builder trees: markers occur only in the expressions of the conditions,
as many in each expression as it has values. -/
def QB.wellFormed : QB → Bool
  | .mk columns fromClause relations whereCondition ctes orders _ setOps _ =>
    columns.all noMarker && noMarker fromClause && relations.all noMarker &&
      Condition.wellFormed whereCondition && orders.all noMarker &&
      QB.wellFormedCtes ctes && QB.wellFormedOps setOps
/-- Well-formed CTE lists: marker-free aliases and well-formed builders. -/
def QB.wellFormedCtes : List (GoString × QB) → Bool
  | [] => true
  | (cteName, q) :: rest => noMarker cteName && QB.wellFormed q && QB.wellFormedCtes rest
/-- Well-formed set-operation steps: well-formed operands. -/
def QB.wellFormedOps : List (SetOperator × QB) → Bool
  | [] => true
  | (_, q) :: rest => QB.wellFormed q && QB.wellFormedOps rest
end

/-- The builder `mr` of `TestQB_String`. -/
def TestQB_String.mr : QB :=
  ((((NewQB.From "mv_right").Columns ["id", "contract_id", "object_id"]).WhereAddExpression
    "object_id = ANY(?)" [GoValue.other "pq.Array of two uuid strings"]).AddOrder
      ["terrirtory_name"]).SetPagination 10 0

/-- The builder `c` of `TestQB_String`. -/
def TestQB_String.c : QB :=
  (((NewQB.From "mv_contracts").Columns ["id", "contract_name"]).WhereAddExpression
    "contract_sum > ?" [GoValue.other "23.45"]).SetPagination 5 0

/-- The builder `qb` of `TestQB_String`. -/
def TestQB_String.qb : QB :=
  ((((((NewQB.With "mv_right_items" TestQB_String.mr).With "mv_contracts_items"
    TestQB_String.c).From "mv_object mo").Columns
      ["mo.id", "mo.title", "mo.rightholder_ids", "mr.id", "mr.contract_id"]).Relate
        "JOIN mv_right_items AS mr ON mr.object_id = mo.id").Relate
          "LEFT JOIN mv_contracts_items AS ci ON ci.id = mr.contract_id").WhereAddExpression
            "mr.object_id IS NOT NULL" []

/-- The builder `q` of `TestQB_Except`, before the set operations. -/
def TestQB_Except.q : QB := (NewQB.Columns ["*"]).From "some_table"

/-- The builder `u1` of `TestQB_Except`. -/
def TestQB_Except.u1 : QB := (NewQB.Columns ["*"]).From "some_table_union_1"

/-- The builder `u2` of `TestQB_Except`. -/
def TestQB_Except.u2 : QB := (NewQB.Columns ["*"]).From "some_table_except_2"

/-! ## Sample builders with arguments in every section -/

/-- A builder with one WHERE argument, used as the first CTE. -/
def sample.cteA : QB :=
  ((NewQB.Columns ["id"]).From "a").WhereAddExpression "x = ?" [GoValue.int 1]

/-- A builder with two WHERE arguments, used as the second CTE. -/
def sample.cteB : QB :=
  ((NewQB.Columns ["id"]).From "b").WhereAddExpression "y IN (?,?)"
    [GoValue.int 2, GoValue.int 3]

/-- A builder with two own WHERE arguments and no CTE. -/
def sample.q : QB :=
  ((NewQB.Columns ["*"]).From "t").WhereAddExpression "c > ? AND d < ?"
    [GoValue.int 4, GoValue.int 5]

/-- An operand with one WHERE argument and no CTE. -/
def sample.u1 : QB :=
  ((NewQB.Columns ["*"]).From "u1").WhereAddExpression "p = ?" [GoValue.int 6]

/-- An operand with one WHERE argument and no CTE. -/
def sample.u2 : QB :=
  ((NewQB.Columns ["*"]).From "u2").WhereAddExpression "r = ?" [GoValue.int 7]

/-- A builder with two CTEs, an own WHERE condition and two set-operation steps, each
carrying arguments. -/
def sample.b : QB :=
  ((((((NewQB.With "a" sample.cteA).With "b" sample.cteB).Columns ["*"]).From
    "t").WhereAddExpression "c > ? AND d < ?" [GoValue.int 4, GoValue.int 5]).Union
      sample.u1).Except sample.u2

end godb

namespace godb

/-! ## Lemmas on texts and markers -/

theorem markers_append (a b : String) : markers (a ++ b) = markers a + markers b := by
  simp [markers, List.count_append]

theorem foldl_join_shift (sep p : String) (rest : List String) (x : String) :
    rest.foldl (fun b s => b ++ sep ++ s) (p ++ x) = p ++ rest.foldl (fun b s => b ++ sep ++ s) x := by
  induction rest generalizing x with
  | nil => rfl
  | cons r rs ih =>
    simp only [List.foldl_cons]
    rw [String.append_assoc p x sep, String.append_assoc p (x ++ sep) r]
    exact ih (x ++ sep ++ r)

theorem Join_nil (sep : String) : strings.Join [] sep = "" := rfl

theorem Join_singleton (a sep : String) : strings.Join [a] sep = a := rfl

theorem Join_cons_cons (a b : String) (rest : List String) (sep : String) :
    strings.Join (a :: b :: rest) sep = a ++ sep ++ strings.Join (b :: rest) sep := by
  simp only [strings.Join, List.foldl_cons]
  rw [String.append_assoc a sep b]
  rw [foldl_join_shift sep a rest (sep ++ b), foldl_join_shift sep sep rest b,
    String.append_assoc]

theorem intercalate_go_eq_foldl (sep : String) (rest : List String) (acc : String) :
    String.intercalate.go acc sep rest = rest.foldl (fun b s => b ++ sep ++ s) acc := by
  induction rest generalizing acc with
  | nil => rfl
  | cons r rs ih => simp only [String.intercalate.go, List.foldl_cons]; exact ih _

/-- Go `strings.Join` is the library `String.intercalate`. -/
theorem Join_eq_intercalate (elems : List String) (sep : String) :
    strings.Join elems sep = sep.intercalate elems := by
  cases elems with
  | nil => rfl
  | cons a rest => simp only [strings.Join, String.intercalate, intercalate_go_eq_foldl]

theorem markers_Join (elems : List String) (sep : String) (hsep : markers sep = 0) :
    markers (strings.Join elems sep) = (elems.map markers).sum := by
  induction elems with
  | nil => rfl
  | cons a rest ih =>
    cases rest with
    | nil => simp [Join_singleton]
    | cons b rest =>
      rw [Join_cons_cons, markers_append, markers_append, hsep, ih]
      simp

theorem markers_Join_replicate (n : Nat) :
    markers (strings.Join (List.replicate n "?") ",") = n := by
  rw [markers_Join _ _ (by decide)]
  induction n with
  | zero => rfl
  | succ k ih =>
    rw [List.replicate_succ, List.map_cons, List.sum_cons, ih]
    have : markers "?" = 1 := by decide
    omega

theorem foldl_snoc_eq_map {α β : Type} (g : α → β) (l : List α) (init : List β) :
    l.foldl (fun acc value => acc ++ [g value]) init = init ++ l.map g := by
  induction l generalizing init with
  | nil => simp
  | cons a rest ih => simp [ih]

theorem ite_ne_of_ne {c : Prop} [Decidable c] {a b x : Char} (ha : a ≠ x) (hb : b ≠ x) :
    (if c then a else b) ≠ x := by
  split <;> assumption

theorem digitChar_ne_marker (n : Nat) : Nat.digitChar n ≠ '?' := by
  unfold Nat.digitChar
  repeat' (first | decide | apply ite_ne_of_ne)

theorem toDigitsCore_no_marker (fuel n : Nat) (ds : List Char) (h : '?' ∉ ds) :
    '?' ∉ Nat.toDigitsCore 10 fuel n ds := by
  induction fuel generalizing n ds with
  | zero => simpa [Nat.toDigitsCore] using h
  | succ k ih =>
    have hd : '?' ∉ Nat.digitChar (n % 10) :: ds := by
      simp only [List.mem_cons, not_or]
      exact ⟨fun e => digitChar_ne_marker _ e.symm, h⟩
    simp only [Nat.toDigitsCore]
    split
    · exact hd
    · exact ih _ _ hd

theorem markers_repr (n : Nat) : markers (Nat.repr n) = 0 := by
  have h : '?' ∉ Nat.toDigits 10 n := toDigitsCore_no_marker _ _ _ (by simp)
  simp only [markers, Nat.repr, List.asString]
  exact List.count_eq_zero_of_not_mem h

theorem markers_fmtInt (i : Int) : markers (fmtInt i) = 0 := by
  cases i with
  | ofNat n => exact markers_repr n
  | negSucc n =>
    simp only [fmtInt]
    rw [markers_append, markers_repr]
    decide

/-! ## Lemmas on `SqlFilter` -/

theorem String_layout (f : SqlFilter) :
    f.String = conditionsText f ++ " " ++ orderAndPagination f := by
  obtain ⟨ex, ord, ⟨lim, off⟩, args⟩ := f
  simp only [SqlFilter.String, conditionsText, orderAndPagination, foldl_snoc_eq_map,
    List.nil_append, Join_eq_intercalate, List.length_map]
  have hc : (if ex.length > 0 then ex.map (fun e => e.Expression) else []) =
      ex.map (fun e => e.Expression) := by
    cases ex <;> simp
  rw [hc]
  congr 1
  cases ord with
  | nil => simp [String.intercalate]
  | cons o os =>
    simp only [List.length_cons, gt_iff_lt, Nat.zero_lt_succ, if_true, reduceCtorEq, if_false]
    split
    · simp only [String.append_assoc]
    · simp

theorem run_cons (f : SqlFilter) (c : FilterCall) (cs : List FilterCall) :
    f.run (c :: cs) = (c.apply f).run cs := rfl

theorem run_append (f : SqlFilter) (a b : List FilterCall) :
    f.run (a ++ b) = (f.run a).run b := by
  simp [SqlFilter.run, List.foldl_append]

theorem apply_expression_of_not_predicate (c : FilterCall) (f : SqlFilter)
    (h : c.isPredicate = false) : (c.apply f).expression = f.expression := by
  cases c <;> simp [FilterCall.isPredicate] at h <;> rfl

theorem apply_expression_of_predicate (c : FilterCall) (f : SqlFilter)
    (h : c.isPredicate = true) : ∃ e, (c.apply f).expression = f.expression ++ [e] := by
  cases c <;> simp [FilterCall.isPredicate] at h <;>
    simp only [FilterCall.apply, SqlFilter.AddFiledFilter, SqlFilter.AddInFilter,
      SqlFilter.AddNotInFilter, SqlFilter.AddExpression] <;>
    (try split) <;> exact ⟨_, rfl⟩

theorem apply_expression_ne_nil (c : FilterCall) (f : SqlFilter) (h : f.expression ≠ []) :
    (c.apply f).expression ≠ [] := by
  cases hc : c.isPredicate with
  | false => rw [apply_expression_of_not_predicate c f hc]; exact h
  | true =>
    obtain ⟨e, he⟩ := apply_expression_of_predicate c f hc
    rw [he]; simp

theorem run_expression_ne_nil (calls : List FilterCall) (f : SqlFilter) :
    (f.run calls).expression ≠ [] ↔
      (f.expression ≠ [] ∨ ∃ c ∈ calls, c.isPredicate = true) := by
  induction calls generalizing f with
  | nil => simp [SqlFilter.run]
  | cons c cs ih =>
    rw [run_cons, ih]
    constructor
    · rintro (h | ⟨d, hd, hp⟩)
      · cases hc : c.isPredicate with
        | false =>
          rw [apply_expression_of_not_predicate c f hc] at h
          exact Or.inl h
        | true => exact Or.inr ⟨c, List.mem_cons_self _ _, hc⟩
      · exact Or.inr ⟨d, List.mem_cons_of_mem _ hd, hp⟩
    · rintro (h | ⟨d, hd, hp⟩)
      · exact Or.inl (apply_expression_ne_nil c f h)
      · rcases List.mem_cons.mp hd with rfl | hd
        · obtain ⟨e, he⟩ := apply_expression_of_predicate d f hp
          left; rw [he]; simp
        · exact Or.inr ⟨d, hd, hp⟩

theorem run_expression_nil (calls : List FilterCall) (f : SqlFilter) (hf : f.expression = [])
    (h : ∀ c ∈ calls, c.isPredicate = false) : (f.run calls).expression = [] := by
  by_contra hne
  rcases (run_expression_ne_nil calls f).mp hne with h1 | ⟨c, hc, hp⟩
  · exact h1 hf
  · rw [h c hc] at hp; exact Bool.noConfusion hp

theorem sum_map_eq_zero {α : Type} (l : List α) (g : α → Nat) (h : ∀ a ∈ l, g a = 0) :
    (l.map g).sum = 0 := by
  induction l with
  | nil => rfl
  | cons a rest ih =>
    rw [List.map_cons, List.sum_cons, h a (List.mem_cons_self _ _),
      ih (fun b hb => h b (List.mem_cons_of_mem _ hb))]

theorem markers_orderAndPagination (f : SqlFilter)
    (h : ∀ o ∈ f.orders, markers o.Field = 0 ∧ markers o.Direction = 0) :
    markers (orderAndPagination f) = 0 := by
  have ho : markers (", ".intercalate (f.orders.map fun o => o.Field ++ " " ++ o.Direction)) = 0 := by
    rw [← Join_eq_intercalate, markers_Join _ _ (by decide), List.map_map]
    apply sum_map_eq_zero
    intro o hmem
    have hsp : markers " " = 0 := by decide
    simp only [Function.comp, markers_append, (h o hmem).1, (h o hmem).2, hsp]
  have h1 : markers "ORDER BY " = 0 := by decide
  have h2 : markers " " = 0 := by decide
  have h3 : markers "LIMIT " = 0 := by decide
  have h4 : markers " OFFSET " = 0 := by decide
  have h5 : markers "" = 0 := by decide
  unfold orderAndPagination
  split <;> split <;>
    simp only [markers_append, ho, h1, h2, h3, h4, h5, markers_fmtInt]

theorem markers_String_of_aligned (f : SqlFilter) (h : Aligned f) :
    markers f.String = f.arguments.length := by
  have hsp : markers " " = 0 := by decide
  rw [String_layout, markers_append, markers_append, markers_orderAndPagination f h.2, hsp,
    conditionsText, ← Join_eq_intercalate, markers_Join _ _ (by decide), List.map_map]
  simpa [Function.comp] using h.1

theorem markers_GetWithWhere_of_aligned (f : SqlFilter) (h : Aligned f) :
    markers f.GetWithWhere = f.arguments.length := by
  have hw : markers "WHERE " = 0 := by decide
  unfold SqlFilter.GetWithWhere
  split
  · rw [markers_append, hw, markers_String_of_aligned f h, Nat.zero_add]
  · exact markers_String_of_aligned f h

theorem aligned_apply (c : FilterCall) (f : SqlFilter) (hf : Aligned f) (hc : c.admissible) :
    Aligned (c.apply f) ∧ (c.apply f).arguments = f.arguments ++ c.values := by
  obtain ⟨hsum, hord⟩ := hf
  have hq : markers " ?" = 1 := by decide
  have hsp : markers " " = 0 := by decide
  have hin : markers " IN (" = 0 := by decide
  have hnin : markers " NOT IN (" = 0 := by decide
  have hcl : markers ")" = 0 := by decide
  cases c with
  | AddFiledFilter field condition value =>
    obtain ⟨h1, h2, h3⟩ := hc
    simp only [FilterCall.apply, SqlFilter.AddFiledFilter, FilterCall.values, if_pos h3]
    refine ⟨⟨?_, hord⟩, trivial⟩
    simp only [List.map_append, List.sum_append, List.map_cons, List.map_nil, List.sum_cons,
      List.sum_nil, List.length_append, List.length_singleton, markers_append, h1, h2, hq, hsp,
      hsum]
    omega
  | AddInFilter field values =>
    have h1 : markers field = 0 := hc
    simp only [FilterCall.apply, SqlFilter.AddInFilter, FilterCall.values]
    refine ⟨⟨?_, hord⟩, trivial⟩
    simp only [List.map_append, List.sum_append, List.map_cons, List.map_nil, List.sum_cons,
      List.sum_nil, List.length_append, markers_append, markers_Join_replicate, h1, hin, hcl,
      hsum]
    omega
  | AddNotInFilter field values =>
    have h1 : markers field = 0 := hc
    simp only [FilterCall.apply, SqlFilter.AddNotInFilter, FilterCall.values]
    refine ⟨⟨?_, hord⟩, trivial⟩
    simp only [List.map_append, List.sum_append, List.map_cons, List.map_nil, List.sum_cons,
      List.sum_nil, List.length_append, markers_append, markers_Join_replicate, h1, hnin, hcl,
      hsum]
    omega
  | AddExpression expression values =>
    have h1 : markers expression = values.length := hc
    simp only [FilterCall.apply, SqlFilter.AddExpression, FilterCall.values]
    split
    · refine ⟨⟨?_, hord⟩, rfl⟩
      simp only [List.map_append, List.sum_append, List.map_cons, List.map_nil, List.sum_cons,
        List.sum_nil, List.length_append, h1, hsum]
      omega
    · have hv : values = [] := by
        cases values with
        | nil => rfl
        | cons v vs => simp at *
      subst hv
      refine ⟨⟨?_, hord⟩, by simp⟩
      simp only [List.map_append, List.sum_append, List.map_cons, List.map_nil, List.sum_cons,
        List.sum_nil, h1, hsum, List.length_nil, Nat.add_zero]
  | AddOrder field direction =>
    obtain ⟨h1, h2⟩ := hc
    simp only [FilterCall.apply, SqlFilter.AddOrder, FilterCall.values, List.append_nil]
    refine ⟨⟨hsum, ?_⟩, trivial⟩
    intro o ho
    rcases List.mem_append.mp ho with ho | ho
    · exact hord o ho
    · rw [List.mem_singleton.mp ho]; exact ⟨h1, h2⟩
  | SetPagination limit offset =>
    simp only [FilterCall.apply, SqlFilter.SetPagination, FilterCall.values, List.append_nil]
    exact ⟨⟨hsum, hord⟩, trivial⟩

theorem aligned_run (calls : List FilterCall) (f : SqlFilter) (hf : Aligned f)
    (hc : ∀ c ∈ calls, c.admissible) :
    Aligned (f.run calls) ∧ (f.run calls).arguments = f.arguments ++ passedValues calls := by
  induction calls generalizing f with
  | nil => exact ⟨hf, by simp [SqlFilter.run, passedValues]⟩
  | cons c cs ih =>
    obtain ⟨ha, hargs⟩ := aligned_apply c f hf (hc c (List.mem_cons_self _ _))
    obtain ⟨hb, hrun⟩ := ih (c.apply f) ha (fun d hd => hc d (List.mem_cons_of_mem _ hd))
    refine ⟨hb, ?_⟩
    rw [run_cons, hrun, hargs, passedValues, List.append_assoc]

theorem aligned_NewSqlFilter : Aligned NewSqlFilter :=
  ⟨rfl, fun _ h => absurd h (List.not_mem_nil _)⟩

theorem aligned_zero : Aligned SqlFilter.zero :=
  ⟨rfl, fun _ h => absurd h (List.not_mem_nil _)⟩

theorem GetWithWhere_of_no_expression (f : SqlFilter) (h : f.expression = []) :
    f.GetWithWhere = " " ++ orderAndPagination f := by
  have hc : conditionsText f = "" := by simp [conditionsText, h, String.intercalate]
  have he : ("" : String) ++ " " = " " := by decide
  simp only [SqlFilter.GetWithWhere, h, List.length_nil, gt_iff_lt, Nat.lt_irrefl, if_false]
  rw [String_layout, hc, he]

theorem not_WHERE_prefix_of_space (t : String) : ¬ ∃ rest : String, " " ++ t = "WHERE" ++ rest := by
  rintro ⟨rest, h⟩
  have hd := congrArg String.data h
  simp only [String.data_append] at hd
  have hh := congrArg List.head? hd
  simp at hh

/-! ## The claims on `SqlFilter` -/

/-- C1: for a filter built from `NewSqlFilter()` or the zero value by any sequence of
mutator calls that are admissible (no marker in a field, operator, order field or
direction; non-nil `AddFiledFilter` values; as many markers in an `AddExpression`
fragment as values), `GetArguments()` is the concatenation in call order of the passed
values, and `String()` and `GetWithWhere()` hold exactly `len(GetArguments())` markers. -/
theorem C1_markers_match_arguments (start : SqlFilter) (calls : List FilterCall)
    (hstart : start = NewSqlFilter ∨ start = SqlFilter.zero)
    (hcalls : ∀ c ∈ calls, c.admissible) :
    (start.run calls).GetArguments = passedValues calls ∧
      markers (start.run calls).String = (start.run calls).GetArguments.length ∧
      markers (start.run calls).GetWithWhere = (start.run calls).GetArguments.length := by
  have hal : Aligned start := by
    rcases hstart with h | h <;> rw [h]
    · exact aligned_NewSqlFilter
    · exact aligned_zero
  have hnil : start.arguments = [] := by
    rcases hstart with h | h <;> rw [h] <;> rfl
  obtain ⟨ha, hargs⟩ := aligned_run calls start hal hcalls
  refine ⟨?_, markers_String_of_aligned _ ha, markers_GetWithWhere_of_aligned _ ha⟩
  rw [SqlFilter.GetArguments, hargs, hnil, List.nil_append]

/-- Witness of C1: a predicate of each kind, an order and a pagination on a new filter. -/
theorem C1_markers_match_arguments_witness :
    (NewSqlFilter.run
        [.AddFiledFilter "a" "=" (.int 1), .AddInFilter "b" [.int 2, .int 3],
          .AddNotInFilter "c" [], .AddExpression "d > ? OR e" [.str "x"],
          .AddOrder "a" "ASC", .SetPagination 5 0]).GetArguments
      = [.int 1, .int 2, .int 3, .str "x"] ∧
    markers (NewSqlFilter.run
        [.AddFiledFilter "a" "=" (.int 1), .AddInFilter "b" [.int 2, .int 3],
          .AddNotInFilter "c" [], .AddExpression "d > ? OR e" [.str "x"],
          .AddOrder "a" "ASC", .SetPagination 5 0]).String = 4 :=
  have h := C1_markers_match_arguments NewSqlFilter
    [.AddFiledFilter "a" "=" (.int 1), .AddInFilter "b" [.int 2, .int 3],
      .AddNotInFilter "c" [], .AddExpression "d > ? OR e" [.str "x"],
      .AddOrder "a" "ASC", .SetPagination 5 0] (Or.inl rfl) (by decide)
  ⟨h.1, h.2.1.trans (congrArg List.length h.1)⟩

/-- C2: `AddInFilter` (resp. `AddNotInFilter`) appends after the existing expressions
exactly `field IN (?,...,?)` (resp. `field NOT IN (?,...,?)`) whose list is one marker
per value joined by single commas (so `n` markers, and `field IN ()` for no value), and
appends the values in order as one block at the end of the arguments; earlier
expressions and arguments, the orders and the pagination are unchanged. -/
theorem C2_in_filter_appends_block (f : SqlFilter) (field : String) (values : List GoValue) :
    (f.AddInFilter field values).expression = f.expression ++
        [{ Expression := field ++ " IN (" ++ ",".intercalate (List.replicate values.length "?")
            ++ ")" }] ∧
      (f.AddNotInFilter field values).expression = f.expression ++
        [{ Expression := field ++ " NOT IN (" ++
            ",".intercalate (List.replicate values.length "?") ++ ")" }] ∧
      markers (",".intercalate (List.replicate values.length "?")) = values.length ∧
      (f.AddInFilter field values).GetArguments = f.GetArguments ++ values ∧
      (f.AddNotInFilter field values).GetArguments = f.GetArguments ++ values ∧
      (f.AddInFilter field []).expression = f.expression ++ [{ Expression := field ++ " IN ()" }] ∧
      (f.AddNotInFilter field []).expression =
        f.expression ++ [{ Expression := field ++ " NOT IN ()" }] ∧
      (f.AddInFilter field values).orders = f.orders ∧
      (f.AddInFilter field values).pagination = f.pagination ∧
      (f.AddNotInFilter field values).orders = f.orders ∧
      (f.AddNotInFilter field values).pagination = f.pagination := by
  have h1 : ∀ t : String, t ++ " IN (" ++ "" ++ ")" = t ++ " IN ()" := by
    intro t; apply String.ext; simp
  have h2 : ∀ t : String, t ++ " NOT IN (" ++ "" ++ ")" = t ++ " NOT IN ()" := by
    intro t; apply String.ext; simp
  refine ⟨?_, ?_, ?_, rfl, rfl, ?_, ?_, rfl, rfl, rfl, rfl⟩
  · simp only [SqlFilter.AddInFilter, Join_eq_intercalate]
  · simp only [SqlFilter.AddNotInFilter, Join_eq_intercalate]
  · rw [← Join_eq_intercalate]; exact markers_Join_replicate _
  · simp only [SqlFilter.AddInFilter, List.length_nil, List.replicate_zero, Join_nil, h1]
  · simp only [SqlFilter.AddNotInFilter, List.length_nil, List.replicate_zero, Join_nil, h2]

/-- C3, the claim as stated fails: with the nil value `AddFiledFilter` appends the
expression `a = ?` and leaves the argument list empty, so it does not grow by one. -/
theorem C3_nil_value_counterexample :
    (NewSqlFilter.AddFiledFilter "a" "=" GoValue.nil).expression = [{ Expression := "a = ?" }] ∧
      (NewSqlFilter.AddFiledFilter "a" "=" GoValue.nil).GetArguments = [] ∧
      (NewSqlFilter.AddFiledFilter "a" "=" GoValue.nil).GetArguments ≠
        NewSqlFilter.GetArguments ++ [GoValue.nil] := by
  decide

/-- C3, amended: `AddFiledFilter` appends exactly one expression `field operator ?` after
the existing ones; it appends the value to the end of the arguments when the value is
not nil and leaves the arguments unchanged when it is nil; orders and pagination are
unchanged. -/
theorem C3_field_filter_appends (f : SqlFilter) (field operator : String) (value : GoValue) :
    (f.AddFiledFilter field operator value).expression =
        f.expression ++ [{ Expression := field ++ " " ++ operator ++ " ?" }] ∧
      (f.AddFiledFilter field operator value).GetArguments =
        (if value = GoValue.nil then f.GetArguments else f.GetArguments ++ [value]) ∧
      (f.AddFiledFilter field operator value).orders = f.orders ∧
      (f.AddFiledFilter field operator value).pagination = f.pagination := by
  unfold SqlFilter.AddFiledFilter SqlFilter.GetArguments
  by_cases h : value = GoValue.nil
  · simp [h]
  · simp [h]

/-- C5: starting from a filter without expressions (such as `NewSqlFilter()` or the zero
value), `GetWithWhere()` is `WHERE ` followed by `String()` when some predicate-adding
call was made and is `String()` otherwise; in the latter case the text does not begin
with `WHERE`, whatever the orders and the pagination. -/
theorem C5_GetWithWhere_prefix (start : SqlFilter) (calls : List FilterCall)
    (hstart : start.expression = []) :
    (start.run calls).GetWithWhere =
        (if calls.any FilterCall.isPredicate then "WHERE " ++ (start.run calls).String
         else (start.run calls).String) ∧
      (calls.any FilterCall.isPredicate = false →
        ¬ ∃ rest : String, (start.run calls).GetWithWhere = "WHERE" ++ rest) := by
  by_cases hp : calls.any FilterCall.isPredicate = true
  · have hne : (start.run calls).expression ≠ [] := by
      rw [run_expression_ne_nil]
      right
      simpa [List.any_eq_true] using hp
    have hlen : (start.run calls).expression.length > 0 := List.length_pos.mpr hne
    refine ⟨?_, fun h => absurd hp (by simp [h])⟩
    simp only [SqlFilter.GetWithWhere, hlen, hp, if_true]
  · have hp2 : calls.any FilterCall.isPredicate = false := by simpa using hp
    have hnil : (start.run calls).expression = [] := by
      apply run_expression_nil calls start hstart
      intro c hc
      have := List.any_eq_false.mp hp2 c hc
      simpa using this
    refine ⟨?_, fun _ => ?_⟩
    · simp [SqlFilter.GetWithWhere, hnil, hp2]
    · rw [GetWithWhere_of_no_expression _ hnil]
      exact not_WHERE_prefix_of_space _

/-- Witness of C5: a new filter with an order and a pagination only. -/
theorem C5_GetWithWhere_prefix_witness :
    (NewSqlFilter.run [.AddOrder "type" "ASC", .SetPagination 10 0]).GetWithWhere =
        (NewSqlFilter.run [.AddOrder "type" "ASC", .SetPagination 10 0]).String ∧
      ¬ ∃ rest : String,
        (NewSqlFilter.run [.AddOrder "type" "ASC", .SetPagination 10 0]).GetWithWhere =
          "WHERE" ++ rest :=
  have h := C5_GetWithWhere_prefix NewSqlFilter [.AddOrder "type" "ASC", .SetPagination 10 0] rfl
  ⟨h.1, h.2 rfl⟩

/-- C6, the claim as stated fails: the filter of the example renders, through
`GetWithWhere()`, the order-and-pagination text preceded by one space. -/
theorem C6_leading_space_counterexample :
    ((NewSqlFilter.AddOrder "type" "ASC").SetPagination 10 0).GetWithWhere
        = " ORDER BY type ASC LIMIT 10 OFFSET 0" ∧
      ((NewSqlFilter.AddOrder "type" "ASC").SetPagination 10 0).GetWithWhere
        ≠ "ORDER BY type ASC LIMIT 10 OFFSET 0" ∧
      ((NewSqlFilter.AddOrder "type" "ASC").SetPagination 10 0).GetWithWhere
        ≠ orderAndPagination ((NewSqlFilter.AddOrder "type" "ASC").SetPagination 10 0) := by
  decide

/-- C6, amended: for a filter to which no predicate has been added, `GetWithWhere()` is
one space followed by exactly the order-and-pagination text. -/
theorem C6_GetWithWhere_without_predicate (start : SqlFilter) (calls : List FilterCall)
    (hstart : start.expression = []) (hcalls : ∀ c ∈ calls, c.isPredicate = false) :
    (start.run calls).GetWithWhere = " " ++ orderAndPagination (start.run calls) :=
  GetWithWhere_of_no_expression _ (run_expression_nil calls start hstart hcalls)

/-- Witness of C6 amended: the example of the specification. -/
theorem C6_GetWithWhere_without_predicate_witness :
    (NewSqlFilter.run [.AddOrder "type" "ASC", .SetPagination 10 0]).GetWithWhere =
      " " ++ orderAndPagination (NewSqlFilter.run [.AddOrder "type" "ASC", .SetPagination 10 0]) :=
  C6_GetWithWhere_without_predicate NewSqlFilter [.AddOrder "type" "ASC", .SetPagination 10 0]
    rfl (by decide)

theorem foldl_AddExpression_expressions (calls : List (String × List GoValue)) (c : Condition) :
    (calls.foldl (fun c call => c.AddExpression call.1 call.2) c).expressions =
      c.expressions ++ calls.map fun call => { text := call.1, values := call.2 } := by
  induction calls generalizing c with
  | nil => simp
  | cons call rest ih =>
    rw [List.foldl_cons, ih]
    simp [Condition.AddExpression]

theorem build_expressions (operator : ConditionOperator) (calls : List (String × List GoValue)) :
    (Condition.build operator calls).expressions =
      calls.map fun call => { text := call.1, values := call.2 } := by
  rw [Condition.build, foldl_AddExpression_expressions]
  rfl

theorem isNonNilPtr_iff (v : GoValue) : v.isNonNilPtr = true ↔ ∃ a, v = GoValue.ptr a := by
  cases v <;> simp [GoValue.isNonNilPtr]

theorem inner_of_ptrs (f : ModelField) (fs : List GoValue) (columns : List String)
    (params : List GoValue) (h : ∀ v ∈ fs, v.isNonNilPtr = true) :
    ModelUpdateQuery.inner f fs columns params =
      Loop.done
        (columns ++ (fs.filter fun v => v = GoValue.ptr f.addr).map fun _ => f.column ++ " = ?")
        (params ++ fs.filter fun v => v = GoValue.ptr f.addr) := by
  induction fs generalizing columns params with
  | nil => simp [ModelUpdateQuery.inner]
  | cons v rest ih =>
    obtain ⟨a, rfl⟩ := (isNonNilPtr_iff v).mp (h v (List.mem_cons_self _ _))
    have hrest : ∀ w ∈ rest, w.isNonNilPtr = true := fun w hw => h w (List.mem_cons_of_mem _ hw)
    by_cases hfa : f.addr = a
    · simp [ModelUpdateQuery.inner, GoValue.isPtrKind, hfa, ih _ _ hrest]
    · have hne : ¬ a = f.addr := fun e => hfa e.symm
      simp [ModelUpdateQuery.inner, GoValue.isPtrKind, hfa, hne, ih _ _ hrest]

theorem outer_of_ptrs (mfs : List ModelField) (fs : List GoValue) (columns : List String)
    (params : List GoValue) (h : ∀ v ∈ fs, v.isNonNilPtr = true) :
    ModelUpdateQuery.outer mfs fs columns params =
      Loop.done
        (columns ++ (mfs.flatMap fun f =>
          (fs.filter fun v => v = GoValue.ptr f.addr).map fun v => (f, v)).map
            fun p => p.1.column ++ " = ?")
        (params ++ (mfs.flatMap fun f =>
          (fs.filter fun v => v = GoValue.ptr f.addr).map fun v => (f, v)).map fun p => p.2) := by
  induction mfs generalizing columns params with
  | nil => simp [ModelUpdateQuery.outer]
  | cons f rest ih =>
    simp only [ModelUpdateQuery.outer, inner_of_ptrs f fs columns params h, ih]
    simp [List.flatMap_cons, Function.comp_def]

theorem inner_done_ptrs (f : ModelField) (fs : List GoValue) (columns : List String)
    (params : List GoValue) (c : List String) (p : List GoValue)
    (h : ModelUpdateQuery.inner f fs columns params = Loop.done c p) :
    ∀ v ∈ fs, v.isNonNilPtr = true := by
  induction fs generalizing columns params with
  | nil => intro v hv; exact absurd hv (List.not_mem_nil _)
  | cons w rest ih =>
    intro v hv
    cases w with
    | ptr a =>
      rcases List.mem_cons.mp hv with rfl | hv
      · rfl
      · by_cases hfa : f.addr = a
        · simp only [ModelUpdateQuery.inner, GoValue.isPtrKind, hfa, if_true] at h
          exact ih _ _ (by simpa using h) v hv
        · simp only [ModelUpdateQuery.inner, GoValue.isPtrKind, hfa, if_false] at h
          exact ih _ _ (by simpa using h) v hv
    | nil => simp [ModelUpdateQuery.inner, GoValue.isPtrKind] at h
    | int i => simp [ModelUpdateQuery.inner, GoValue.isPtrKind] at h
    | str t => simp [ModelUpdateQuery.inner, GoValue.isPtrKind] at h
    | bool b => simp [ModelUpdateQuery.inner, GoValue.isPtrKind] at h
    | other d => simp [ModelUpdateQuery.inner, GoValue.isPtrKind] at h
    | nilPtr => simp [ModelUpdateQuery.inner, GoValue.isPtrKind] at h

theorem outer_done_ptrs (f : ModelField) (rest : List ModelField) (fs : List GoValue)
    (c : List String) (p : List GoValue)
    (h : ModelUpdateQuery.outer (f :: rest) fs [] [] = Loop.done c p) :
    ∀ v ∈ fs, v.isNonNilPtr = true := by
  simp only [ModelUpdateQuery.outer] at h
  cases hi : ModelUpdateQuery.inner f fs [] [] with
  | done c1 p1 => exact inner_done_ptrs f fs [] [] c1 p1 hi
  | failed p1 => rw [hi] at h; simp at h
  | panicked => rw [hi] at h; simp at h

theorem inner_failed (f : ModelField) (fs : List GoValue) (columns : List String)
    (params : List GoValue) (hnil : ∀ v ∈ fs, v ≠ GoValue.nilPtr)
    (hbad : ∃ v ∈ fs, v.isPtrKind = false) :
    ∃ p, ModelUpdateQuery.inner f fs columns params = Loop.failed p := by
  induction fs generalizing columns params with
  | nil => obtain ⟨v, hv, _⟩ := hbad; exact absurd hv (List.not_mem_nil _)
  | cons w rest ih =>
    have hrest : ∀ v ∈ rest, v ≠ GoValue.nilPtr := fun v hv => hnil v (List.mem_cons_of_mem _ hv)
    have hw := hnil w (List.mem_cons_self _ _)
    cases w with
    | ptr a =>
      have hbad2 : ∃ v ∈ rest, v.isPtrKind = false := by
        obtain ⟨v, hv, hk⟩ := hbad
        rcases List.mem_cons.mp hv with rfl | hv
        · simp [GoValue.isPtrKind] at hk
        · exact ⟨v, hv, hk⟩
      by_cases hfa : f.addr = a
      · simp only [ModelUpdateQuery.inner, GoValue.isPtrKind, hfa, if_true]
        simpa using ih _ _ hrest hbad2
      · simp only [ModelUpdateQuery.inner, GoValue.isPtrKind, hfa, if_false]
        simpa using ih _ _ hrest hbad2
    | nil => exact ⟨params, by simp [ModelUpdateQuery.inner, GoValue.isPtrKind]⟩
    | int i => exact ⟨params, by simp [ModelUpdateQuery.inner, GoValue.isPtrKind]⟩
    | str t => exact ⟨params, by simp [ModelUpdateQuery.inner, GoValue.isPtrKind]⟩
    | bool b => exact ⟨params, by simp [ModelUpdateQuery.inner, GoValue.isPtrKind]⟩
    | other d => exact ⟨params, by simp [ModelUpdateQuery.inner, GoValue.isPtrKind]⟩
    | nilPtr => exact absurd rfl hw

theorem update_of_ptrs (m : Model) (condition : Option Condition) (fs : List GoValue)
    (hptr : ∀ v ∈ fs, v.isNonNilPtr = true) (hmatch : updateMatches m fs ≠ []) :
    ModelUpdateQuery (IModel.structPointer m) condition (some fs) =
      Outcome.returned (updateSql m condition fs, updateParams m condition fs, none) := by
  have hlen : ((updateMatches m fs).map fun p => p.1.column ++ " = ?").length > 0 := by
    rw [List.length_map]; exact List.length_pos.mpr hmatch
  have ho : ModelUpdateQuery.outer m.fields fs [] [] =
      Loop.done ((updateMatches m fs).map fun p => p.1.column ++ " = ?")
        ((updateMatches m fs).map fun p => p.2) := by
    rw [outer_of_ptrs m.fields fs [] [] hptr]; rfl
  simp only [ModelUpdateQuery, ho]
  rw [if_pos hlen]
  cases condition with
  | none =>
    simp [Condition.IsEmpty, updateSql, updateParams, updateSetClause, Join_eq_intercalate]
  | some c =>
    by_cases he : Condition.IsEmpty (some c) = true
    · simp [he, updateSql, updateParams, updateSetClause, Join_eq_intercalate]
    · have he2 : Condition.IsEmpty (some c) = false := by simpa using he
      simp [he2, updateSql, updateParams, updateSetClause, Join_eq_intercalate,
        Condition.textOf, Condition.argumentsOf]

theorem update_error_of_no_match (m : Model) (condition : Option Condition) (fs : List GoValue)
    (hptr : ∀ v ∈ fs, v.isNonNilPtr = true) (hmatch : updateMatches m fs = []) :
    ModelUpdateQuery (IModel.structPointer m) condition (some fs) =
      Outcome.returned ("", [], some "No columns found in model") := by
  have ho : ModelUpdateQuery.outer m.fields fs [] [] = Loop.done [] [] := by
    rw [outer_of_ptrs m.fields fs [] [] hptr]
    have hm : (m.fields.flatMap fun f =>
        (fs.filter fun v => v = GoValue.ptr f.addr).map fun v => (f, v)) = [] := hmatch
    rw [hm]; rfl
  simp only [ModelUpdateQuery, ho]
  rfl

/-! ## The claims on `Condition` and on the model queries -/

/-- C8: `IsEmpty()` is true on a nil `*Condition` and on a condition just created by
`NewSqlCondition(ConditionOperatorAnd)`; on a condition built by `AddExpression` calls it
is true iff no call was made, whether or not the calls carried values; and
`ModelDeleteQuery` on a model with a nil or empty condition yields `DELETE FROM <table>;`
without `WHERE`. -/
theorem C8_IsEmpty_and_delete (operator : ConditionOperator)
    (calls : List (String × List GoValue)) (m : Model) (condition : Option Condition) :
    Condition.IsEmpty none = true ∧
      Condition.IsEmpty (some (NewSqlCondition ConditionOperatorAnd)) = true ∧
      (Condition.IsEmpty (some (Condition.build operator calls)) = true ↔ calls = []) ∧
      (Condition.IsEmpty condition = true ↔
        (condition = none ∨ ∃ c, condition = some c ∧ c.expressions = [])) ∧
      ModelDeleteQuery (some m) none =
        Outcome.returned ("DELETE FROM " ++ m.table ++ ";", none) ∧
      ModelDeleteQuery (some m) (some (NewSqlCondition operator)) =
        Outcome.returned ("DELETE FROM " ++ m.table ++ ";", none) ∧
      ModelDeleteQuery (some m) condition =
        (if Condition.IsEmpty condition then
          Outcome.returned ("DELETE FROM " ++ m.table ++ ";", none)
         else Outcome.returned
          ("DELETE FROM " ++ m.table ++ (" WHERE " ++ Condition.textOf condition ++ ";"), none)) := by
  refine ⟨rfl, rfl, ?_, ?_, rfl, rfl, ?_⟩
  · simp [Condition.IsEmpty, build_expressions]
  · cases condition with
    | none => simp [Condition.IsEmpty]
    | some c => simp [Condition.IsEmpty]
  · cases condition with
    | none => rfl
    | some c =>
      by_cases he : Condition.IsEmpty (some c) = true
      · simp [ModelDeleteQuery, he]
      · have he2 : Condition.IsEmpty (some c) = false := by simpa using he
        simp [ModelDeleteQuery, he2, Condition.textOf]

/-- C10, the claim as stated fails: a passed nil pointer matches no model field, yet the
call does not return an error, it panics inside reflection; so it does when a value
that is not a pointer follows the nil pointer, and when the model is a typed nil
pointer and a value that is not a pointer is passed. And for a column whose name holds
a marker the `SET` clause has two markers for one param. -/
theorem C10_nil_pointer_counterexample :
    updateMatches { table := "t", fields := [{ addr := 0, column := "id" }] } [GoValue.nilPtr] = [] ∧
      ModelUpdateQuery (IModel.structPointer { table := "t", fields := [{ addr := 0, column := "id" }] })
        none (some [GoValue.nilPtr]) = Outcome.panicked ∧
      ModelUpdateQuery (IModel.structPointer { table := "t", fields := [{ addr := 0, column := "id" }] })
        none (some [GoValue.nilPtr, GoValue.int 5]) = Outcome.panicked ∧
      ModelUpdateQuery IModel.nilPointer none (some [GoValue.int 5]) = Outcome.panicked ∧
      ModelUpdateQuery (IModel.structPointer { table := "t", fields := [{ addr := 0, column := "a?" }] })
        none (some [GoValue.ptr 0]) =
          Outcome.returned ("UPDATE t SET a? = ?;", [GoValue.ptr 0], none) ∧
      markers (updateSetClause { table := "t", fields := [{ addr := 0, column := "a?" }] }
        [GoValue.ptr 0]) = 2 := by
  decide

/-- C10, amended: whenever `ModelUpdateQuery` returns no error, the model is a non-nil
pointer to a struct, every passed field is a non-nil pointer, at least one matches,
`sql` is `UPDATE table SET ` followed by the entries `column = ?` (one per match of a
model field with a passed pointer, in model-field order, joined by `,`) and by
` WHERE condition;` for a non-empty condition or `;` otherwise, and `params` is the
matched pointers in the order of their entries followed by the arguments of the
non-empty condition; this result is returned whenever the model is a non-nil pointer
to a struct, all passed fields are non-nil pointers and one matches; the `SET` clause
has as many markers as there are matched params when no column holds a marker; and an
error with empty `sql` is returned when the model is the nil interface, when no fields
are passed, and, provided the model is a non-nil pointer to a struct and no passed
field is a nil pointer, when a passed field is not a pointer or when no passed pointer
matches a model field. -/
theorem C10_update_query (model : IModel) (m : Model) (condition : Option Condition)
    (fs : List GoValue) (fields : Option (List GoValue)) :
    (∀ sql params,
        ModelUpdateQuery model condition fields = Outcome.returned (sql, params, none) →
        ∃ m1 fs1, model = IModel.structPointer m1 ∧ fields = some fs1 ∧
          sql = updateSql m1 condition fs1 ∧ params = updateParams m1 condition fs1 ∧
          updateMatches m1 fs1 ≠ [] ∧ ∀ v ∈ fs1, v.isNonNilPtr = true) ∧
      ((∀ v ∈ fs, v.isNonNilPtr = true) → updateMatches m fs ≠ [] →
        ModelUpdateQuery (IModel.structPointer m) condition (some fs) =
          Outcome.returned (updateSql m condition fs, updateParams m condition fs, none)) ∧
      ((∀ f ∈ m.fields, markers f.column = 0) →
        markers (updateSetClause m fs) = ((updateMatches m fs).map fun p => p.2).length) ∧
      (∃ msg, ModelUpdateQuery IModel.nil condition fields = Outcome.returned ("", [], some msg)) ∧
      (∃ msg, ModelUpdateQuery model condition none = Outcome.returned ("", [], some msg)) ∧
      ((∀ v ∈ fs, v ≠ GoValue.nilPtr) →
        ((∃ v ∈ fs, v.isPtrKind = false) ∨ updateMatches m fs = []) →
        ∃ params msg,
          ModelUpdateQuery (IModel.structPointer m) condition (some fs) =
            Outcome.returned ("", params, some msg)) := by
  refine ⟨?_, update_of_ptrs m condition fs, ?_, ?_, ?_, ?_⟩
  · intro sql params h
    cases model with
    | nil => simp [ModelUpdateQuery] at h
    | nilPointer => cases fields <;> simp [ModelUpdateQuery] at h
    | notStructPointer => cases fields <;> simp [ModelUpdateQuery] at h
    | structPointer m1 =>
      cases fields with
      | none => simp [ModelUpdateQuery] at h
      | some fs1 =>
        have hptr : ∀ v ∈ fs1, v.isNonNilPtr = true := by
          cases hmf : m1.fields with
          | nil =>
            simp [ModelUpdateQuery, hmf, ModelUpdateQuery.outer] at h
          | cons f rest =>
            cases ho : ModelUpdateQuery.outer (f :: rest) fs1 [] [] with
            | done c p => exact outer_done_ptrs f rest fs1 c p ho
            | failed p => simp [ModelUpdateQuery, hmf, ho] at h
            | panicked => simp [ModelUpdateQuery, hmf, ho] at h
        by_cases hmatch : updateMatches m1 fs1 = []
        · rw [update_error_of_no_match m1 condition fs1 hptr hmatch] at h
          simp at h
        · rw [update_of_ptrs m1 condition fs1 hptr hmatch] at h
          simp only [Outcome.returned.injEq, Prod.mk.injEq, and_true] at h
          exact ⟨m1, fs1, rfl, rfl, h.1.symm, h.2.symm, hmatch, hptr⟩
  · intro hcol
    rw [updateSetClause, ← Join_eq_intercalate, markers_Join _ _ (by decide), List.map_map,
      List.length_map]
    have hq : markers " = ?" = 1 := by decide
    have hone : ∀ p ∈ updateMatches m fs, markers (p.1.column ++ " = ?") = 1 := by
      intro p hp
      have hmem : p.1 ∈ m.fields := by
        simp only [updateMatches, List.mem_flatMap, List.mem_map] at hp
        obtain ⟨f, hf, v, _, rfl⟩ := hp
        exact hf
      rw [markers_append, hcol _ hmem, hq]
    generalize updateMatches m fs = l at hone
    induction l with
    | nil => rfl
    | cons p rest ih =>
      simp only [List.map_cons, List.sum_cons, Function.comp, List.length_cons]
      rw [hone p (List.mem_cons_self _ _)]
      have := ih (fun q hq => hone q (List.mem_cons_of_mem _ hq))
      simp only [Function.comp] at this
      omega
  · exact ⟨"Model is nil, check your logic", by simp [ModelUpdateQuery]⟩
  · cases model with
    | nil => exact ⟨"Model is nil, check your logic", by simp [ModelUpdateQuery]⟩
    | structPointer m1 =>
      exact ⟨"Fields is empty, nothing for update", by simp [ModelUpdateQuery]⟩
    | nilPointer => exact ⟨"Fields is empty, nothing for update", by simp [ModelUpdateQuery]⟩
    | notStructPointer =>
      exact ⟨"Fields is empty, nothing for update", by simp [ModelUpdateQuery]⟩
  · intro hnil hcase
    by_cases hbad : ∃ v ∈ fs, v.isPtrKind = false
    · cases hmf : m.fields with
      | nil =>
        exact ⟨[], "No columns found in model", by
          simp [ModelUpdateQuery, hmf, ModelUpdateQuery.outer]⟩
      | cons f rest =>
        obtain ⟨p, hp⟩ := inner_failed f fs [] [] hnil hbad
        exact ⟨p, "Fields must be an interfaces", by
          simp [ModelUpdateQuery, hmf, ModelUpdateQuery.outer, hp]⟩
    · have hptr : ∀ v ∈ fs, v.isNonNilPtr = true := by
        intro v hv
        have h1 := hnil v hv
        have h2 : v.isPtrKind = true := by
          by_contra hk
          exact hbad ⟨v, hv, by simpa using hk⟩
        cases v <;> simp_all [GoValue.isPtrKind, GoValue.isNonNilPtr]
      have hmatch : updateMatches m fs = [] := by
        rcases hcase with h | h
        · exact absurd h hbad
        · exact h
      exact ⟨[], _, update_error_of_no_match m condition fs hptr hmatch⟩

/-- Witness of C10 amended: two fields passed in the reverse of the model order, with a
condition of one expression. -/
theorem C10_update_query_witness :
    ModelUpdateQuery
        (IModel.structPointer
          { table := "t", fields := [{ addr := 0, column := "id" }, { addr := 8, column := "name" }] })
        (some ((NewSqlCondition ConditionOperatorAnd).AddExpression "id = ?" [GoValue.int 3]))
        (some [GoValue.ptr 8, GoValue.ptr 0]) =
      Outcome.returned ("UPDATE t SET id = ?,name = ? WHERE id = ?;",
        [GoValue.ptr 0, GoValue.ptr 8, GoValue.int 3], none) :=
  (C10_update_query IModel.nil
      { table := "t", fields := [{ addr := 0, column := "id" }, { addr := 8, column := "name" }] }
      (some ((NewSqlCondition ConditionOperatorAnd).AddExpression "id = ?" [GoValue.int 3]))
      [GoValue.ptr 8, GoValue.ptr 0] none).2.1 (by decide) (by decide)

/-! ## Lemmas on the query builder -/

theorem foldl_append_shift (p : String) (rest : List String) (x : String) :
    rest.foldl (fun r t => r ++ t) (p ++ x) = p ++ rest.foldl (fun r t => r ++ t) x := by
  induction rest generalizing x with
  | nil => rfl
  | cons r rs ih =>
    simp only [List.foldl_cons]
    rw [String.append_assoc p x r]
    exact ih (x ++ r)

theorem join_cons (a : String) (l : List String) : String.join (a :: l) = a ++ String.join l := by
  have h : ("" : String) ++ a = a ++ "" := by apply String.ext; simp
  simp only [String.join, List.foldl_cons]
  rw [h, foldl_append_shift]

theorem markers_join (l : List String) : markers (String.join l) = (l.map markers).sum := by
  induction l with
  | nil => rfl
  | cons a rest ih => rw [join_cons, markers_append, ih, List.map_cons, List.sum_cons]

theorem markers_parenthesize (b : Bool) (t : String) : markers (parenthesize b t) = markers t := by
  have h1 : markers "(" = 0 := by decide
  have h2 : markers ")" = 0 := by decide
  cases b
  · rfl
  · simp only [parenthesize, if_true, markers_append, h1, h2]
    omega

theorem markers_withText (l : List String) : markers (withText l) = (l.map markers).sum := by
  have h1 : markers "WITH " = 0 := by decide
  have h2 : markers " " = 0 := by decide
  unfold withText
  split
  · rw [markers_append, markers_append, markers_Join _ _ (by decide), h1, h2]
    omega
  · have hl : l = [] := by
      cases l with
      | nil => rfl
      | cons a r => simp at *
    subst hl
    rfl

theorem sum_map_markers_of_all (l : List String) (h : l.all noMarker = true) :
    (l.map markers).sum = 0 := by
  apply sum_map_eq_zero
  intro a ha
  have := List.all_eq_true.mp h a ha
  simpa [noMarker] using this

theorem markers_keyword_sep (op : ConditionOperator) : markers (" " ++ op.keyword ++ " ") = 0 := by
  cases op <;> decide

theorem markers_Condition_String (c : Condition)
    (h : (c.expressions.all fun e => markers e.text == e.values.length) = true) :
    markers c.String = c.GetArguments.length := by
  rw [Condition.String, markers_Join _ _ (markers_keyword_sep _), Condition.GetArguments,
    List.length_flatten, List.map_map, List.map_map]
  congr 1
  apply List.map_congr_left
  intro e he
  have := List.all_eq_true.mp h e he
  simpa using this

theorem argumentsOf_of_IsEmpty (w : Option Condition) (h : Condition.IsEmpty w = true) :
    Condition.argumentsOf w = [] := by
  cases w with
  | none => rfl
  | some c =>
    have hl : c.expressions = [] := by
      cases hc : c.expressions with
      | nil => rfl
      | cons a r => simp [Condition.IsEmpty, hc] at h
    simp [Condition.argumentsOf, Condition.GetArguments, hl]

theorem markers_selectText (columns : List String) (fromClause : String)
    (relations : List String) (w : Option Condition) (orders : List String)
    (pagination : sqlPaginationFilter) (h1 : columns.all noMarker = true)
    (h2 : noMarker fromClause = true) (h3 : relations.all noMarker = true)
    (h4 : Condition.wellFormed w = true) (h5 : orders.all noMarker = true) :
    markers (selectText columns fromClause relations w orders pagination) =
      (Condition.argumentsOf w).length := by
  have k1 : markers "SELECT " = 0 := by decide
  have k2 : markers " FROM " = 0 := by decide
  have k3 : markers " WHERE " = 0 := by decide
  have k4 : markers " ORDER BY " = 0 := by decide
  have k5 : markers " LIMIT " = 0 := by decide
  have k6 : markers " OFFSET " = 0 := by decide
  have k7 : markers "" = 0 := by decide
  have hf : markers fromClause = 0 := by simpa [noMarker] using h2
  have hcol : markers (strings.Join columns ", ") = 0 := by
    rw [markers_Join _ _ (by decide), sum_map_markers_of_all _ h1]
  have hord : markers (strings.Join orders ", ") = 0 := by
    rw [markers_Join _ _ (by decide), sum_map_markers_of_all _ h5]
  have hrel : markers (String.join (relations.map fun r => " " ++ r)) = 0 := by
    rw [markers_join, List.map_map]
    apply sum_map_eq_zero
    intro r hr
    have hsp : markers " " = 0 := by decide
    have := List.all_eq_true.mp h3 r hr
    simp only [Function.comp, markers_append, hsp]
    simpa [noMarker] using this
  have hw : markers (if Condition.IsEmpty w then ""
      else " WHERE " ++ Condition.textOf w) = (Condition.argumentsOf w).length := by
    by_cases he : Condition.IsEmpty w = true
    · rw [if_pos he, argumentsOf_of_IsEmpty w he]; rfl
    · rw [if_neg he]
      cases w with
      | none => exact absurd rfl he
      | some c =>
        rw [markers_append, k3, Nat.zero_add]
        exact markers_Condition_String c h4
  have ho : markers (if orders.length > 0 then " ORDER BY " ++ strings.Join orders ", "
      else "") = 0 := by
    split
    · rw [markers_append, k4, hord]
    · rfl
  have hp : markers (if pagination.Limit > 0 then
      " LIMIT " ++ fmtInt pagination.Limit ++ " OFFSET " ++ fmtInt pagination.Offset
      else "") = 0 := by
    split
    · simp only [markers_append, k5, k6, markers_fmtInt]
    · rfl
  unfold selectText
  rw [markers_append, markers_append, markers_append, markers_append, markers_append,
    markers_append, markers_append, hp, ho, hw, hrel, hf, hcol, k1, k2]
  omega

mutual
theorem markers_render : ∀ (outermost : Bool) (q : QB), QB.wellFormed q = true →
    markers (QB.render outermost q) = (QB.collect outermost q).length
  | outermost, .mk columns fromClause relations w ctes orders pagination setOps subQuery, h => by
    simp only [QB.wellFormed, Bool.and_eq_true] at h
    obtain ⟨⟨⟨⟨⟨⟨h1, h2⟩, h3⟩, h4⟩, h5⟩, h6⟩, h7⟩ := h
    have hc := markers_renderCtes ctes h6
    have ho := markers_renderOps setOps h7
    have hs := markers_selectText columns fromClause relations w orders pagination h1 h2 h3 h4 h5
    simp only [QB.render, QB.collect, markers_parenthesize, markers_append, List.length_append,
      hs, ho]
    cases outermost
    · simp only [Bool.false_eq_true, if_false, List.length_nil]
      rfl
    · simp only [if_true, markers_withText, hc]
theorem markers_renderCtes : ∀ (l : List (String × QB)), QB.wellFormedCtes l = true →
    ((QB.renderCtes l).map markers).sum = (QB.collectCtes l).length
  | [], _ => rfl
  | (cteName, q) :: rest, h => by
    simp only [QB.wellFormedCtes, Bool.and_eq_true] at h
    obtain ⟨⟨h1, h2⟩, h3⟩ := h
    have hq := markers_render true q h2
    have hr := markers_renderCtes rest h3
    have k1 : markers " AS (" = 0 := by decide
    have k2 : markers ")" = 0 := by decide
    have hn : markers cteName = 0 := by simpa [noMarker] using h1
    simp only [QB.renderCtes, QB.collectCtes, List.map_cons, List.sum_cons, markers_append,
      List.length_append, hq, hr, k1, k2, hn]
    omega
theorem markers_renderOps : ∀ (l : List (SetOperator × QB)), QB.wellFormedOps l = true →
    markers (QB.renderOps l) = (QB.collectOps l).length
  | [], _ => rfl
  | (op, q) :: rest, h => by
    simp only [QB.wellFormedOps, Bool.and_eq_true] at h
    obtain ⟨h1, h2⟩ := h
    have hq := markers_render false q h1
    have hr := markers_renderOps rest h2
    have k0 : markers " " = 0 := by decide
    have k1 : markers " (" = 0 := by decide
    have k2 : markers ")" = 0 := by decide
    have hk : markers op.keyword = 0 := by cases op <;> decide
    simp only [QB.renderOps, QB.collectOps, markers_append, List.length_append, hq, hr, k0, k1,
      k2, hk]
    omega
end

theorem fmtInt_examples :
    fmtInt 0 = "0" ∧ fmtInt 100 = "100" ∧ fmtInt 2024 = "2024" ∧ fmtInt (-7) = "-7" := by
  decide

theorem SqlFilter_example :
    (((NewSqlFilter.AddFiledFilter "a" "=" (GoValue.int 1)).AddInFilter "b"
        [GoValue.int 2, GoValue.int 3]).AddOrder "a" "DESC").GetWithWhere =
      "WHERE a = ? AND b IN (?,?) ORDER BY a DESC LIMIT 100 OFFSET 0" := by
  decide

theorem Condition_example :
    (((NewSqlCondition ConditionOperatorAnd).AddExpression "a = ?" [GoValue.int 1]).AddExpression
        "b IN (?,?)" [GoValue.int 2, GoValue.int 3]).String = "a = ? AND b IN (?,?)" ∧
      (((NewSqlCondition ConditionOperatorAnd).AddExpression "a = ?" [GoValue.int 1]).AddExpression
        "b IN (?,?)" [GoValue.int 2, GoValue.int 3]).GetArguments =
        [GoValue.int 1, GoValue.int 2, GoValue.int 3] := by
  decide

theorem TestQB_Except_example :
    ((TestQB_Except.q.Union TestQB_Except.u1).Except TestQB_Except.u2).String =
      "SELECT * FROM some_table UNION (SELECT * FROM some_table_union_1) EXCEPT (SELECT * FROM some_table_except_2)" := by
  decide

theorem ModelUpdateQuery_examples :
    ModelUpdateQuery
        (IModel.structPointer
          { table := "t", fields := [{ addr := 0, column := "id" }, { addr := 8, column := "name" }] })
        none (some [GoValue.ptr 0, GoValue.int 5]) =
      Outcome.returned ("", [GoValue.ptr 0], some "Fields must be an interfaces") ∧
    ModelUpdateQuery
        (IModel.structPointer
          { table := "t", fields := [{ addr := 0, column := "id" }, { addr := 8, column := "name" }] })
        none (some [GoValue.ptr 16]) =
      Outcome.returned ("", [], some "No columns found in model") ∧
    ModelUpdateQuery
        (IModel.structPointer
          { table := "t", fields := [{ addr := 0, column := "id" }, { addr := 8, column := "name" }] })
        none (some [GoValue.ptr 8]) =
      Outcome.returned ("UPDATE t SET name = ?;", [GoValue.ptr 8], none) ∧
    ModelUpdateQuery IModel.nilPointer none none =
      Outcome.returned ("", [], some "Fields is empty, nothing for update") ∧
    ModelUpdateQuery IModel.nilPointer none (some []) = Outcome.panicked ∧
    ModelUpdateQuery IModel.notStructPointer none (some [GoValue.ptr 0]) = Outcome.panicked ∧
    ModelUpdateQuery (IModel.structPointer { table := "t", fields := [] }) none
        (some [GoValue.nilPtr, GoValue.int 5]) =
      Outcome.returned ("", [], some "No columns found in model") := by
  refine ⟨?_, ?_, ?_, ?_, ?_, ?_, ?_⟩ <;> decide

set_option maxRecDepth 8000 in
theorem TestQB_String_example :
    TestQB_String.qb.String =
      "WITH mv_right_items AS (SELECT id, contract_id, object_id FROM mv_right WHERE object_id = ANY(?) ORDER BY terrirtory_name LIMIT 10 OFFSET 0), mv_contracts_items AS (SELECT id, contract_name FROM mv_contracts WHERE contract_sum > ? LIMIT 5 OFFSET 0) SELECT mo.id, mo.title, mo.rightholder_ids, mr.id, mr.contract_id FROM mv_object mo JOIN mv_right_items AS mr ON mr.object_id = mo.id LEFT JOIN mv_contracts_items AS ci ON ci.id = mr.contract_id WHERE mr.object_id IS NOT NULL" ∧
      TestQB_String.qb.GetArguments =
        [GoValue.other "pq.Array of two uuid strings", GoValue.other "23.45"] := by
  decide

set_option maxRecDepth 8000 in
theorem sample_b_example :
    sample.b.String =
      "WITH a AS (SELECT id FROM a WHERE x = ?), b AS (SELECT id FROM b WHERE y IN (?,?)) SELECT * FROM t WHERE c > ? AND d < ? UNION (SELECT * FROM u1 WHERE p = ?) EXCEPT (SELECT * FROM u2 WHERE r = ?)" := by
  decide

end godb
